import Mathlib

/-!
Shallow embedding of the blockify ledger library core, checked against its
specification.

Sources embedded directly from the repository:
- `src/trans/record.rs` — the `Record` contract, the `impl_record_for!` bodies
  shared by the built-in implementations (String, bool, i64, byte blob), and
  `SignedRecord` with its `new` constructor and `verify` method;
- `src/trans/blocks.rs` — `Block` with `push`, and `ChainedInstance` whose
  `records` method is `unimplemented!()`;
- `src/data/mod.rs` — `Metadata` (a vector of `Detail`s) with `push`/`pop`.

Parts of the repository that claims depend on but that are not present in the
source tree (the `sec::crypto` primitives, the `sec::merkle` MerkleTree, the
chain store) are modelled from the specification; each such definition carries
a doc comment starting `Modelled from the spec:`.
-/

/-- Modelled from the spec: `src/sec/crypto.rs` is not in the source tree.
A fixed-width opaque byte digest; "All digests in the system have the same
width" (§3). Bytes are modelled as naturals below 256. -/
structure Hash where
  data : List Nat
deriving DecidableEq

/-- Modelled from the spec: the library's fixed digest width (§3 "fixed-width
opaque byte digest"); 32 bytes, the width of a SHA-256 style digest. -/
def digestWidth : Nat := 32

/-- Modelled from the spec: "root of an empty tree is the all-zero digest of
the library's digest width" (§4.4). -/
def zeroHash : Hash := ⟨List.replicate digestWidth 0⟩

/-- Modelled from the spec: the cryptographic hash H applied to a byte string
(§4.1). The spec treats H as an opaque deterministic fixed-width digest; this
stand-in is a deterministic executable function producing `digestWidth` bytes.
No claim depends on collision resistance, only on determinism. -/
def hashBytes (bs : List Nat) : Hash :=
  ⟨(List.range digestWidth).map (fun i => bs.foldl (fun a x => (a * 31 + x + 1) % 256) (i + 1))⟩

/-- Modelled from the spec: the algorithm tag carried on keys (§4.2); the
initial algorithm set is {Ed25519}. -/
inductive KeyPairAlgorithm where
  | Ed25519
deriving DecidableEq

/-- Modelled from the spec: an asymmetric private+public keypair tagged with an
algorithm identifier (§3). The key material is abstracted to an identifier. -/
structure AuthKeyPair where
  key : Nat
  algorithm : KeyPairAlgorithm
deriving DecidableEq

/-- Modelled from the spec: the verifier half of an AuthKeyPair (§3). -/
structure PublicKey where
  key : Nat
  algorithm : KeyPairAlgorithm
deriving DecidableEq

/-- Modelled from the spec: derive the public key from a keypair (§4.2
`keypair.public()`; called `into_public_key` in `record.rs`). -/
def AuthKeyPair.into_public_key (kp : AuthKeyPair) : PublicKey :=
  ⟨kp.key, kp.algorithm⟩

/-- Returns the algorithm tag of a public key (§4.2 `public.algorithm()`). -/
def PublicKey.algorithm' (pk : PublicKey) : KeyPairAlgorithm := pk.algorithm

/-- Modelled from the spec: opaque algorithm-specific byte sequence bound to a
message and a key (§3). -/
structure DigitalSignature where
  data : List Nat
deriving DecidableEq

/-- Modelled from the spec: canonical serialization failure (§7 CodecError). -/
inductive CodecError where
  | failure
deriving DecidableEq

/-- Modelled from the spec: key unusable or signing primitive failed; wraps
CodecError when the serialization step fails (§7). Constructor names follow
the `SigningError::SerdeError` use in `record.rs`. -/
inductive SigningError where
  | SerdeError (e : CodecError)
deriving DecidableEq

/-- Modelled from the spec: signature did not verify, or the record's
serialization differs from what the signature covers (§7). -/
inductive VerificationError where
  | SerdeError (e : CodecError)
  | InvalidSignature
deriving DecidableEq

/-- Modelled from the spec: `crate::sign_msg(&msg, key)` (§4.2
`keypair.sign(bytes) → Signature | SigningError`). A correct deterministic
signature scheme is modelled abstractly: the signature produced by a keypair
on a message is the pair of its key identifier and the message. -/
def sign_msg (msg : List Nat) (kp : AuthKeyPair) : Except SigningError DigitalSignature :=
  .ok ⟨kp.key :: msg⟩

/-- Modelled from the spec: `public.verify(bytes, signature) → () | VerificationError`
(§4.2). Verification succeeds exactly when the signature is the one the
matching private key produces on this message. -/
def PublicKey.verify (pk : PublicKey) (msg : List Nat) (sig : DigitalSignature) :
    Except VerificationError Unit :=
  if sig.data = pk.key :: msg then .ok () else .error .InvalidSignature

/-- Modelled from the spec: the canonical-serialization capability required of
record types (§4.1): "deterministic (same logical value → identical bytes)".
This is the `serde::Serialize` bound the `impl_record_for!` macro relies on;
`encode` gives the canonical bytes of a value. -/
class Serializable (α : Type) where
  encode : α → List Nat

/-- Modelled from the spec: `crate::serialize(v) → bytes | CodecError` (§4.1).
For the built-in record types encoding never fails, so the result is always
`ok` of the canonical bytes. -/
def serialize {α : Type} [Serializable α] (v : α) : Except CodecError (List Nat) :=
  .ok (Serializable.encode v)

/-- Modelled from the spec: `hash(v) → Hash = H(serialize(v))` (§4.1), the
`crate::hash(self)` used by `impl_record_for!`. -/
def crateHash {α : Type} [Serializable α] (v : α) : Hash :=
  hashBytes (Serializable.encode v)

/-- Canonical bytes of a `String` record (built-in impl target of
`impl_record_for!(String)`): a tag byte followed by the character codes. -/
instance : Serializable String := ⟨fun s => 0 :: s.toList.map Char.toNat⟩

/-- Canonical bytes of a `bool` record (`impl_record_for!(bool)`). -/
instance : Serializable Bool := ⟨fun b => [1, cond b 1 0]⟩

/-- Canonical bytes of an `i64` record (`impl_record_for!(i64)`): a tag byte,
a sign byte, and the magnitude. -/
instance : Serializable Int := ⟨fun i => if 0 ≤ i then [2, 0, i.toNat] else [2, 1, (-i).toNat]⟩

/-- Canonical bytes of a byte-blob record (`impl_record_for!(Box<[u8]>)`). -/
instance : Serializable (List Nat) := ⟨fun bs => 3 :: bs⟩

/-- `Timestamp` from `src/data/mod.rs`: seconds since epoch, a `u64`. -/
structure Timestamp where
  secs : Nat
deriving DecidableEq

/-- `Timestamp::from_secs` from `src/data/mod.rs`. -/
def Timestamp.from_secs (secs : Nat) : Timestamp := ⟨secs⟩

/-- `Detail` from `src/data/mod.rs`: a typed metadata detail value with
variants text, integer, byte-blob, timestamp, boolean. -/
inductive Detail where
  | Text (s : String)
  | Integer (i : Int)
  | Bytes (b : List Nat)
  | Stamp (t : Timestamp)
  | Boolean (b : Bool)
deriving DecidableEq

/-- `Metadata` from `src/data/mod.rs`: an ordered sequence of `Detail`s. -/
structure Metadata where
  details : List Detail
deriving DecidableEq

/-- `Metadata::new` from `src/data/mod.rs`: the empty detail vector. -/
def Metadata.new : Metadata := ⟨[]⟩

/-- `Metadata::empty` from `src/data/mod.rs`, an alias for `new`. -/
def Metadata.empty : Metadata := Metadata.new

/-- `Metadata::push` from `src/data/mod.rs`: `self.details.push(value)`
appends at the end of the vector. The Rust mutation is modelled by returning
the updated value. -/
def Metadata.push (m : Metadata) (value : Detail) : Metadata :=
  ⟨m.details ++ [value]⟩

/-- `Metadata::pop` from `src/data/mod.rs`: `self.details.pop()` removes and
returns the last element, or returns `None` on an empty vector. The Rust
mutation is modelled by returning the popped element with the updated value. -/
def Metadata.pop (m : Metadata) : Option Detail × Metadata :=
  (m.details.getLast?, ⟨m.details.dropLast⟩)

/-- `SignedRecord` from `src/trans/record.rs`: the signer's public key, the
digital signature on the record, the record's hash, the record itself, and
associated metadata. -/
structure SignedRecord (R : Type) where
  signer : PublicKey
  signature : DigitalSignature
  hash : Hash
  record : R
  metadata : Metadata
deriving DecidableEq

/-- `SignedRecord::new` from `src/trans/record.rs`: creates a new
`SignedRecord` with the given values; it is `pub` and performs no checks. -/
def SignedRecord.new {R : Type} (record : R) (signature : DigitalSignature)
    (signer : PublicKey) (hash : Hash) (metadata : Metadata) : SignedRecord R :=
  { record := record, signature := signature, hash := hash,
    signer := signer, metadata := metadata }

/-- `Record::sign` as generated by `impl_record_for!` in `src/trans/record.rs`:
serialize the value, mapping failure to `SigningError::SerdeError`, then sign
the canonical bytes with `crate::sign_msg`. -/
def Record.sign {α : Type} [Serializable α] (v : α) (key : AuthKeyPair) :
    Except SigningError DigitalSignature :=
  match serialize v with
  | .error e => .error (SigningError.SerdeError e)
  | .ok msg => sign_msg msg key

/-- `Record::verify` as generated by `impl_record_for!`: serialize the value,
mapping failure to `VerificationError::SerdeError`, then verify with the given
public key. -/
def Record.verify {α : Type} [Serializable α] (v : α) (signature : DigitalSignature)
    (key : PublicKey) : Except VerificationError Unit :=
  match serialize v with
  | .error e => .error (VerificationError.SerdeError e)
  | .ok msg => key.verify msg signature

/-- `Record::hash` as generated by `impl_record_for!`: `crate::hash(self)`. -/
def Record.hash {α : Type} [Serializable α] (v : α) : Hash := crateHash v

/-- `Record::record` as generated by `impl_record_for!`: sign the value,
compute its hash, and bundle value, signature, the keypair's public key, hash
and the provided metadata into a `SignedRecord` via `SignedRecord::new`. -/
def Record.record {α : Type} [Serializable α] (v : α) (keypair : AuthKeyPair)
    (metadata : Metadata) : Except SigningError (SignedRecord α) :=
  match Record.sign v keypair with
  | .error e => .error e
  | .ok signature =>
      .ok (SignedRecord.new v signature keypair.into_public_key (Record.hash v) metadata)

/-- `SignedRecord::verify` from `src/trans/record.rs`:
`self.record.verify(self.signature(), self.signer())`. -/
def SignedRecord.verify {α : Type} [Serializable α] (sr : SignedRecord α) :
    Except VerificationError Unit :=
  Record.verify sr.record sr.signature sr.signer

/-- Modelled from the spec: the Merkle node rule, internal nodes are
`H(left ‖ right)` (§4.4). -/
def hashPair (left right : Hash) : Hash :=
  hashBytes (left.data ++ right.data)

/-- Modelled from the spec: `src/sec/merkle.rs` is not in the source tree.
The MerkleTree "commits to an ordered sequence of leaf hashes" (§3, §4.4);
its state is that leaf sequence. -/
structure MerkleTree where
  leaves : List Hash
deriving DecidableEq

/-- Modelled from the spec: combine one level of nodes into the next level
up — adjacent pairs become `H(left ‖ right)`, and by the odd-leaf policy a
level with an odd number of nodes duplicates its last node and pairs it with
itself (Bitcoin-style, §4.4). -/
def combineLevel : List Hash → List Hash
  | [] => []
  | [a] => [hashPair a a]
  | a :: b :: rest => hashPair a b :: combineLevel rest

/-- Modelled from the spec: the bottom-up level iteration computing the Merkle
root (§4.4): fold levels with `combineLevel` until one node remains; the empty
rule gives `zeroHash`, the singleton rule gives the leaf itself. The `fuel`
argument bounds the number of level steps; `rootFuel_congr` below proves any
fuel of at least `l.length - 1` computes the same value, so the exhausted-fuel
branch is never reached from `rootOfLeaves`. -/
def rootFuel : Nat → List Hash → Hash
  | _, [] => zeroHash
  | _, [h] => h
  | 0, _ => zeroHash
  | n + 1, l => rootFuel n (combineLevel l)

/-- Modelled from the spec: the Merkle root of an ordered leaf sequence
(§4.4): iterate `combineLevel`; `l.length` level steps always suffice. -/
def rootOfLeaves (l : List Hash) : Hash := rootFuel l.length l

/-- Modelled from the spec: a MerkleTree with zero leaves. -/
def MerkleTree.empty : MerkleTree := ⟨[]⟩

/-- Modelled from the spec: incremental `push(hash)` appends the leaf at the
end of the committed sequence (§4.4); leaves are "the record hashes in
insertion order". -/
def MerkleTree.push (t : MerkleTree) (h : Hash) : MerkleTree :=
  ⟨t.leaves ++ [h]⟩

/-- Modelled from the spec: bulk reconstruction of the tree from a vector of
leaves (§4.4, §4.7 retrieval "rebuilds the MerkleTree from the record
hashes"). -/
def MerkleTree.fromLeaves (L : List Hash) : MerkleTree := ⟨L⟩

/-- Modelled from the spec: `root()` "returns the root as-if of the current
sequence" (§4.4). -/
def MerkleTree.root (t : MerkleTree) : Hash := rootOfLeaves t.leaves

/-- `BlockError` from `src/trans/blocks.rs`: an empty struct. -/
structure BlockError where
deriving DecidableEq

/-- `BlockRange` (from `axs::dat`, not in the source tree). Modelled from the
spec: `records_range` is `[start, end)` into the persistent record table
(§3). -/
structure BlockRange where
  lo : Nat
  hi : Nat
deriving DecidableEq

/-- `TimeStamp` (from `axs::dat`, not in the source tree). Modelled from the
spec: a monotonic timestamp, seconds since epoch (§4.7 step 3). -/
structure TimeStamp where
  secs : Nat
deriving DecidableEq

/-- `ChainedInstance` from `src/trans/blocks.rs`: the header/descriptor of a
committed block — nonce, position, timestamp, hash, prev_hash, merkle_root,
records_range. -/
structure ChainedInstance where
  nonce : Nat
  position : Nat
  time_stamp : TimeStamp
  hash : Hash
  prev_hash : Hash
  merkle_root : Hash
  records_range : BlockRange
deriving DecidableEq

instance : Inhabited ChainedInstance :=
  ⟨{ nonce := 0, position := 0, time_stamp := ⟨0⟩, hash := zeroHash,
     prev_hash := zeroHash, merkle_root := zeroHash, records_range := ⟨0, 0⟩ }⟩

/-- Modelled from Rust panics: `unimplemented!()` aborts without producing a
value. An operation of result type `α` either panics or returns a value. -/
inductive PanicOr (α : Type) where
  | panicked
  | returned (a : α)

/-- `ChainedInstance::records` from `src/trans/blocks.rs`: the body is
`unimplemented!()`, which unconditionally panics, so no `Ok` or `Err` value is
ever produced. -/
def ChainedInstance.records (R : Type) (_ : ChainedInstance) :
    PanicOr (Except BlockError (List (SignedRecord R))) :=
  .panicked

/-- `Block` from `src/trans/blocks.rs`: the vector of SignedRecords, the
MerkleTree, and a merkle_root field. -/
structure Block (R : Type) where
  records : List (SignedRecord R)
  merkle : MerkleTree
  merkle_root : Hash
deriving DecidableEq

/-- `Block::push` from `src/trans/blocks.rs`: reads `item.hash()` (the stored
hash field of the SignedRecord), pushes it into the MerkleTree, appends the
item to the records vector, and returns `Ok(())`. The Rust mutation is
modelled by returning the updated block inside the `Result`. -/
def Block.push {R : Type} (b : Block R) (item : SignedRecord R) :
    Except BlockError (Block R) :=
  .ok { records := b.records ++ [item],
        merkle := b.merkle.push item.hash,
        merkle_root := b.merkle_root }

/-- Sequencing helper: apply `Block::push` for each item in order, keeping the
updated block of a successful push (pushes never fail, as proved below). -/
def Block.pushAll {R : Type} (b : Block R) (items : List (SignedRecord R)) : Block R :=
  items.foldl (fun acc it => match acc.push it with | .ok b' => b' | .error _ => acc) b

/-- The Block representation invariant relating its two collections: the
MerkleTree's leaves are exactly the stored hashes of the records, in order. -/
def blockInv {R : Type} (b : Block R) : Prop :=
  b.merkle.leaves = b.records.map SignedRecord.hash

/-- `Block::records` from `src/trans/blocks.rs`. -/
def Block.records' {R : Type} (b : Block R) : List (SignedRecord R) := b.records

/-- `UnchainedInstance` (builder). Modelled from the spec: block-level
metadata, a target nonce, and an ordered vector of SignedRecords (§4.5). -/
structure UnchainedInstance (R : Type) where
  metadata : Metadata
  nonce : Nat
  records : List (SignedRecord R)
deriving DecidableEq

/-- Modelled from the spec: the block header hash,
`H(canonical(prev_hash, merkle_root, nonce, position, timestamp))` (§4.7
step 4, §3 chain invariant 3). -/
def blockHash (prev_hash merkle_root : Hash) (nonce position timestamp : Nat) : Hash :=
  hashBytes (prev_hash.data ++ merkle_root.data ++ [nonce, position, timestamp])

/-- Modelled from the spec: read the current tip's hash; if the chain is
empty, `prev_hash = zero` (§4.7 step 1). -/
def tipHash (c : List ChainedInstance) : Hash :=
  match c.getLast? with
  | none => zeroHash
  | some t => t.hash

/-- Modelled from the spec: the next record-table offset — the end of the
tip's `records_range`, or 0 on an empty chain (§4.7 steps 1 and 5: ranges of
consecutive blocks are adjacent). -/
def nextOffset (c : List ChainedInstance) : Nat :=
  match c.getLast? with
  | none => 0
  | some t => t.records_range.hi

/-- Modelled from the spec: the header of the block appended to chain `c` from
builder `b` at timestamp `ts` (§4.7 steps 1-4): prev_hash is the tip's hash,
position the next index, merkle_root the root of the builder's ordered record
hashes, the header hash binds them all, and the records range continues the
tip's range contiguously. -/
def chainHeader {R : Type} (c : List ChainedInstance) (b : UnchainedInstance R)
    (ts : Nat) : ChainedInstance :=
  { nonce := b.nonce, position := c.length, time_stamp := ⟨ts⟩,
    hash := blockHash (tipHash c) (rootOfLeaves (b.records.map SignedRecord.hash))
      b.nonce c.length ts,
    prev_hash := tipHash c,
    merkle_root := rootOfLeaves (b.records.map SignedRecord.hash),
    records_range := ⟨nextOffset c, nextOffset c + b.records.length⟩ }

/-- Modelled from the spec: `append(&builder)` on the chain store (§4.7) —
the chain store (`SqliteChain`) is not in the source tree. Atomically appends
the new block header to the committed chain; the persistent chain is modelled
as the ordered list of committed block headers. -/
def appendBlock {R : Type} (c : List ChainedInstance) (b : UnchainedInstance R)
    (ts : Nat) : List ChainedInstance :=
  c ++ [chainHeader c b ts]

/-- Modelled from the spec: a stored chain built by a sequence of `append`
calls, each with its builder and timestamp, starting from the empty chain
(§4.7: `open` on first open creates an empty chain). -/
def buildChain {R : Type} (appends : List (UnchainedInstance R × Nat)) :
    List ChainedInstance :=
  appends.foldl (fun c p => appendBlock c p.1 p.2) []

/-- The chain-linkage invariant over a list of headers: each block's
`prev_hash` is the previous block's `hash` (§3 chain invariant 2). -/
def linkedChain (c : List ChainedInstance) : Prop :=
  ∀ i : Nat, i + 1 < c.length →
    (c.getD (i + 1) default).prev_hash = (c.getD i default).hash

instance {ε α : Type} [DecidableEq ε] [DecidableEq α] : DecidableEq (Except ε α) :=
  fun a b =>
    match a, b with
    | .error e, .error e' =>
        if h : e = e' then isTrue (by rw [h])
        else isFalse (fun hh => h (Except.error.inj hh))
    | .error _, .ok _ => isFalse (fun hh => Except.noConfusion hh)
    | .ok _, .error _ => isFalse (fun hh => Except.noConfusion hh)
    | .ok x, .ok x' =>
        if h : x = x' then isTrue (by rw [h])
        else isFalse (fun hh => h (Except.ok.inj hh))

/-- A sample keypair for concrete evaluation. -/
def sampleKey : AuthKeyPair := ⟨7, .Ed25519⟩

/-- The SignedRecord that `Record::record` produces from the boolean record
`true` under `sampleKey` with empty metadata. -/
def sampleSigned : SignedRecord Bool :=
  SignedRecord.new true ⟨[7, 1, 1]⟩ ⟨7, .Ed25519⟩ (crateHash true) Metadata.empty

/-- A second sample keypair for concrete evaluation. -/
def sampleKey2 : AuthKeyPair := ⟨9, .Ed25519⟩

/-- The SignedRecord that `Record::record` produces from the i64 record `5`
under `sampleKey2` with one metadata detail. -/
def sampleSigned2 : SignedRecord Int :=
  SignedRecord.new 5 ⟨[9, 2, 0, 5]⟩ ⟨9, .Ed25519⟩ (crateHash (5 : Int))
    ⟨[Detail.Boolean true]⟩

/-- A SignedRecord assembled directly through the public `SignedRecord::new`
with a hash field unrelated to its record: `new` performs no checks. -/
def badSigned : SignedRecord Bool :=
  SignedRecord.new true ⟨[]⟩ ⟨0, .Ed25519⟩ zeroHash Metadata.empty

/-- Sample record for metadata-noninterference evaluation, empty metadata. -/
def srMeta1 : SignedRecord Bool :=
  SignedRecord.new false ⟨[4]⟩ ⟨4, .Ed25519⟩ zeroHash Metadata.empty

/-- The same record, signature and signer as `srMeta1` but different
metadata. -/
def srMeta2 : SignedRecord Bool :=
  SignedRecord.new false ⟨[4]⟩ ⟨4, .Ed25519⟩ zeroHash ⟨[Detail.Text "note"]⟩

/-- A concrete two-append chain build: two empty builders with nonces 0 and 1
at timestamps 11 and 12. -/
def appendsW : List (UnchainedInstance Bool × Nat) :=
  [(⟨Metadata.empty, 0, []⟩, 11), (⟨Metadata.empty, 1, []⟩, 12)]

/-- A concrete empty block for push evaluation. -/
def blockW : Block Bool := ⟨[], ⟨[]⟩, zeroHash⟩

/-- A concrete SignedRecord to push into `blockW`. -/
def itemW : SignedRecord Bool :=
  SignedRecord.new true ⟨[3]⟩ ⟨1, .Ed25519⟩ zeroHash Metadata.empty

theorem combineLevel_length : ∀ l : List Hash, (combineLevel l).length = (l.length + 1) / 2
  | [] => rfl
  | [_] => by simp [combineLevel]
  | _ :: _ :: rest => by
      have ih := combineLevel_length rest
      simp only [combineLevel, List.length_cons, ih]
      omega

theorem rootFuel_nil (f : Nat) : rootFuel f [] = zeroHash := by
  cases f <;> rfl

theorem rootFuel_single (f : Nat) (h : Hash) : rootFuel f [h] = h := by
  cases f <;> rfl

theorem rootFuel_congr : ∀ (f g : Nat) (l : List Hash),
    l.length ≤ f + 1 → l.length ≤ g + 1 → rootFuel f l = rootFuel g l
  | f, g, [], _, _ => by rw [rootFuel_nil, rootFuel_nil]
  | f, g, [h], _, _ => by rw [rootFuel_single, rootFuel_single]
  | f + 1, g + 1, a :: b :: rest, hf, hg => by
      show rootFuel f (combineLevel (a :: b :: rest)) = rootFuel g (combineLevel (a :: b :: rest))
      apply rootFuel_congr f g (combineLevel (a :: b :: rest))
      · have := combineLevel_length (a :: b :: rest)
        simp only [List.length_cons] at hf this ⊢
        omega
      · have := combineLevel_length (a :: b :: rest)
        simp only [List.length_cons] at hg this ⊢
        omega

theorem rootOfLeaves_step (l : List Hash) (h : 2 ≤ l.length) :
    rootOfLeaves l = rootOfLeaves (combineLevel l) := by
  cases l with
  | nil => simp at h
  | cons a t =>
    cases t with
    | nil => simp at h
    | cons b rest =>
      show rootFuel (rest.length + 1 + 1) (a :: b :: rest) =
        rootFuel (combineLevel (a :: b :: rest)).length (combineLevel (a :: b :: rest))
      have step : rootFuel (rest.length + 1 + 1) (a :: b :: rest) =
          rootFuel (rest.length + 1) (combineLevel (a :: b :: rest)) := rfl
      rw [step]
      apply rootFuel_congr
      · have := combineLevel_length (a :: b :: rest)
        simp only [List.length_cons] at this
        omega
      · exact Nat.le_succ_of_le (Nat.le_refl _)

theorem tipHash_eq_getD (c : List ChainedInstance) (hne : c ≠ []) :
    tipHash c = (c.getD (c.length - 1) default).hash := by
  induction c using List.reverseRecOn with
  | nil => exact absurd rfl hne
  | append_singleton l x _ =>
      have hlen : (l ++ [x]).length - 1 = l.length := by simp
      rw [hlen, List.getD_append_right l [x] default l.length (Nat.le_refl _)]
      simp [tipHash, List.getLast?_concat]

theorem linkedChain_append {R : Type} (c : List ChainedInstance)
    (b : UnchainedInstance R) (ts : Nat) (h : linkedChain c) :
    linkedChain (appendBlock c b ts) := by
  intro i hi
  simp only [appendBlock, List.length_append, List.length_cons, List.length_nil] at hi
  rcases Nat.lt_or_ge (i + 1) c.length with hc | hc
  · rw [appendBlock, List.getD_append _ _ _ _ hc,
      List.getD_append _ _ _ _ (Nat.lt_of_le_of_lt (Nat.le_succ i) hc)]
    exact h i hc
  · have he : i + 1 = c.length := by omega
    rw [appendBlock, List.getD_append_right _ _ _ _ hc,
      List.getD_append _ _ _ _ (by omega : i < c.length)]
    have h0 : i + 1 - c.length = 0 := by omega
    rw [h0]
    show (chainHeader c b ts).prev_hash = (c.getD i default).hash
    have hne : c ≠ [] := by
      intro hnil
      rw [hnil] at he
      simp at he
    have hstep : (chainHeader c b ts).prev_hash = tipHash c := rfl
    rw [hstep, tipHash_eq_getD c hne]
    have hidx : c.length - 1 = i := by omega
    rw [hidx]

theorem linkedChain_buildChain {R : Type} (appends : List (UnchainedInstance R × Nat)) :
    linkedChain (buildChain appends) := by
  have general : ∀ (l : List (UnchainedInstance R × Nat)) (c : List ChainedInstance),
      linkedChain c → linkedChain (l.foldl (fun c p => appendBlock c p.1 p.2) c) := by
    intro l
    induction l with
    | nil => intro c hc; exact hc
    | cons p l ih =>
        intro c hc
        exact ih _ (linkedChain_append c p.1 p.2 hc)
  apply general appends []
  intro i hi
  simp at hi

theorem merkle_foldl_push (L : List Hash) :
    ∀ t : MerkleTree, L.foldl MerkleTree.push t = ⟨t.leaves ++ L⟩ := by
  induction L with
  | nil =>
      intro t
      cases t
      simp
  | cons h L ih =>
      intro t
      rw [List.foldl_cons, ih]
      simp [MerkleTree.push]

theorem blockInv_pushAll {R : Type} : ∀ (items : List (SignedRecord R)) (b : Block R),
    blockInv b → blockInv (b.pushAll items)
  | [], _, hb => hb
  | it :: items, b, hb => by
      have h1 : blockInv ⟨b.records ++ [it], b.merkle.push it.hash, b.merkle_root⟩ := by
        simp only [blockInv, MerkleTree.push, List.map_append] at hb ⊢
        rw [hb]
        rfl
      exact blockInv_pushAll items _ h1

/-- C1: signature round-trip (P1) — for every record value of a type with the
canonical-serialization capability (the built-in implementations cover String,
bool, i64 and byte blob), every keypair and every metadata, if
`Record::record` returns `Ok(sr)` then `sr.verify()` returns `Ok(())`. -/
theorem record_verify_roundtrip {α : Type} [Serializable α] (v : α) (k : AuthKeyPair)
    (m : Metadata) (sr : SignedRecord α) (h : Record.record v k m = .ok sr) :
    sr.verify = .ok () := by
  simp only [Record.record, Record.sign, serialize, sign_msg, Record.hash,
    Except.ok.injEq] at h
  subst h
  simp [SignedRecord.verify, Record.verify, serialize, PublicKey.verify,
    SignedRecord.new, AuthKeyPair.into_public_key]

/-- Witness for C1 at the boolean record `true`, keypair 7, empty metadata. -/
theorem record_verify_roundtrip_witness :
    Record.record true sampleKey Metadata.empty = .ok sampleSigned ∧
    sampleSigned.verify = .ok () :=
  ⟨rfl, record_verify_roundtrip true sampleKey Metadata.empty sampleSigned rfl⟩

/-- C2 counterexample: `SignedRecord::new` is `pub` and performs no checks, so
a SignedRecord value whose stored hash is not the hash of its record (and
whose signature does not verify) is constructible; the claimed invariant does
not hold of every SignedRecord value. -/
theorem signedrecord_unchecked_new_cex :
    ¬ (badSigned.hash = crateHash badSigned.record ∧ badSigned.verify = .ok ()) :=
  fun h => absurd h.1 (by decide)

/-- C2 (amended): every SignedRecord produced by the `Record::record`
constructor satisfies `hash == H(canonical(record))` and `verify() == Ok`. -/
theorem signedrecord_record_invariant {α : Type} [Serializable α] (v : α)
    (k : AuthKeyPair) (m : Metadata) (sr : SignedRecord α)
    (h : Record.record v k m = .ok sr) :
    sr.hash = crateHash sr.record ∧ sr.verify = .ok () := by
  simp only [Record.record, Record.sign, serialize, sign_msg, Record.hash,
    Except.ok.injEq] at h
  subst h
  constructor
  · rfl
  · simp [SignedRecord.verify, Record.verify, serialize, PublicKey.verify,
      SignedRecord.new, AuthKeyPair.into_public_key]

/-- Witness for C2's amended theorem at the i64 record `5`, keypair 9, one
metadata detail. -/
theorem signedrecord_record_invariant_witness :
    Record.record (5 : Int) sampleKey2 ⟨[Detail.Boolean true]⟩ = .ok sampleSigned2 ∧
    (sampleSigned2.hash = crateHash sampleSigned2.record ∧ sampleSigned2.verify = .ok ()) :=
  ⟨rfl, signedrecord_record_invariant (5 : Int) sampleKey2 ⟨[Detail.Boolean true]⟩
    sampleSigned2 rfl⟩

/-- C3: metadata noninterference — `SignedRecord::verify` reads only the
record, signature and signer, so any two SignedRecords agreeing on those three
fields (in particular, ones differing only in metadata) verify identically. -/
theorem verify_metadata_noninterference {α : Type} [Serializable α]
    (a b : SignedRecord α) (hr : a.record = b.record) (hs : a.signature = b.signature)
    (hk : a.signer = b.signer) : a.verify = b.verify := by
  unfold SignedRecord.verify
  rw [hr, hs, hk]

/-- Witness for C3 at two concrete SignedRecords differing only in their
metadata field. -/
theorem verify_metadata_noninterference_witness :
    srMeta1.verify = srMeta2.verify :=
  verify_metadata_noninterference srMeta1 srMeta2 rfl rfl rfl

/-- C4: chain linkage (P4) — in every stored chain (every chain reachable by a
sequence of appends from the empty chain), each block at position p > 0 has
`prev_hash` equal to the hash of the block at position p-1. -/
theorem chain_linkage {R : Type} (appends : List (UnchainedInstance R × Nat))
    (p : Nat) (hp : 0 < p) (hl : p < (buildChain appends).length) :
    ((buildChain appends).getD p default).prev_hash
      = ((buildChain appends).getD (p - 1) default).hash := by
  have hlinked := linkedChain_buildChain appends (p - 1) (by omega)
  have hpe : p - 1 + 1 = p := Nat.succ_pred_eq_of_pos hp
  rw [hpe] at hlinked
  exact hlinked

/-- Witness for C4 on a concrete two-block chain at position 1. -/
theorem chain_linkage_witness :
    1 < (buildChain appendsW).length ∧
    ((buildChain appendsW).getD 1 default).prev_hash
      = ((buildChain appendsW).getD 0 default).hash :=
  ⟨by decide, chain_linkage appendsW 1 (by decide) (by decide)⟩

/-- C5: Merkle determinism (P3) — pushing the leaves of any ordered sequence L
incrementally into an empty MerkleTree yields the same root as bulk
reconstruction of the tree from the vector L. -/
theorem merkle_incremental_eq_bulk (L : List Hash) :
    (L.foldl MerkleTree.push MerkleTree.empty).root = (MerkleTree.fromLeaves L).root := by
  rw [merkle_foldl_push]
  simp [MerkleTree.empty, MerkleTree.fromLeaves]

/-- C6: Merkle empty rule (P9) — the root of a MerkleTree with zero leaves is
the all-zero digest of the library's digest width, and a block appended from a
builder with zero records has `merkle_root` equal to that zero digest. -/
theorem merkle_empty_rule (R : Type) (t : MerkleTree) (ht : t.leaves = []) :
    t.root = zeroHash ∧
    ∀ (c : List ChainedInstance) (md : Metadata) (n ts : Nat),
      ((appendBlock c (⟨md, n, []⟩ : UnchainedInstance R) ts).getD c.length
        default).merkle_root = zeroHash := by
  constructor
  · rw [MerkleTree.root, ht]
    rfl
  · intro c md n ts
    rw [appendBlock, List.getD_append_right c _ default c.length (Nat.le_refl _),
      Nat.sub_self]
    rfl

/-- Witness for C6 at the empty MerkleTree and an empty builder appended to
the empty chain. -/
theorem merkle_empty_rule_witness :
    MerkleTree.empty.root = zeroHash ∧
    ((appendBlock ([] : List ChainedInstance)
      (⟨Metadata.empty, 0, []⟩ : UnchainedInstance Bool) 5).getD 0
        default).merkle_root = zeroHash :=
  ⟨(merkle_empty_rule Bool MerkleTree.empty rfl).1,
   (merkle_empty_rule Bool MerkleTree.empty rfl).2 [] Metadata.empty 0 5⟩

/-- C7: Merkle singleton rule — for every hash h, a MerkleTree containing
exactly one leaf h has root equal to h itself (the odd-level duplication of
`combineLevel` is never applied to a singleton leaf level, since the level
iteration stops as soon as one node remains). -/
theorem merkle_singleton_rule (h : Hash) :
    (MerkleTree.fromLeaves [h]).root = h := rfl

/-- C8: `Block::push` never fails, and starting from any block whose
MerkleTree leaves are exactly the stored hashes of its records in order, any
sequence of pushes maintains that invariant. -/
theorem block_push_total_and_inv (R : Type) (b : Block R)
    (items : List (SignedRecord R)) (hb : blockInv b) :
    (∀ it : SignedRecord R, (b.push it).isOk = true) ∧ blockInv (b.pushAll items) :=
  ⟨fun _ => rfl, blockInv_pushAll items b hb⟩

/-- Witness for C8 at a concrete empty block and a one-record push list. -/
theorem block_push_total_and_inv_witness :
    blockInv blockW ∧
    ((∀ it : SignedRecord Bool, (blockW.push it).isOk = true) ∧
      blockInv (blockW.pushAll [itemW])) :=
  ⟨rfl, block_push_total_and_inv Bool blockW [itemW] rfl⟩

/-- C9: `ChainedInstance::records` is `unimplemented!()` — for every
ChainedInstance and every record type, the call panics and never returns a
value, so neither its `Ok` nor its `Err` branch is reachable. -/
theorem chained_instance_records_panics (R : Type) (c : ChainedInstance) :
    ChainedInstance.records R c = PanicOr.panicked ∧
    ∀ v : Except BlockError (List (SignedRecord R)),
      ChainedInstance.records R c ≠ PanicOr.returned v :=
  ⟨rfl, fun _ h => PanicOr.noConfusion h⟩

/-- C10: metadata push/pop round-trip — for every Metadata m and Detail d,
popping after pushing returns `Some d` and restores m; popping a Metadata
whose details sequence is empty returns `None` and leaves it unchanged. -/
theorem metadata_push_pop_roundtrip (m e : Metadata) (d : Detail)
    (he : e.details = []) :
    (m.push d).pop = (some d, m) ∧ e.pop = (none, e) := by
  constructor
  · cases m with
    | mk details =>
        simp [Metadata.push, Metadata.pop, List.getLast?_concat,
          List.dropLast_concat]
  · cases e with
    | mk details =>
        simp only at he
        subst he
        rfl

/-- Witness for C10 at a one-detail Metadata with a pushed integer detail, and
the empty Metadata. -/
theorem metadata_push_pop_roundtrip_witness :
    ((⟨[Detail.Boolean true]⟩ : Metadata).push (Detail.Integer 3)).pop
      = (some (Detail.Integer 3), ⟨[Detail.Boolean true]⟩) ∧
    Metadata.empty.pop = (none, Metadata.empty) :=
  metadata_push_pop_roundtrip ⟨[Detail.Boolean true]⟩ Metadata.empty
    (Detail.Integer 3) rfl
